import Mathlib

/-!
Shallow embedding of `src/app.py` (Mergington High School activities API).

The MongoDB collection `activities` is modelled as a list of documents
(`Store`).  `find_one` mirrors a point lookup on the `activity_name` field
(first matching document).  `update_one` with a `$push` modifier is
`pushParticipant` (append to the array of the first matching document,
reporting `modified_count`); `update_one` with `$pull` is `pullParticipant`
(MongoDB `$pull` removes every matching element of the array; the document
counts as modified exactly when at least one occurrence was present).

Each HTTP handler is embedded as a pure function from the store to a result
together with the store after the call.  The handlers perform two separate
collection operations (a `find_one` followed by an `update_one`), so the
general form (`..._from`) takes the store at read time and the store at
update time separately; the sequential (uninterleaved) semantics is the
diagonal, where both are the same store.
-/

/-- A document of the `activities` collection.  `mongoId` stands for the
storage-internal `_id` assigned by the database; no application code reads
it, its concrete values are immaterial. -/
structure ActivityDoc where
  mongoId : Nat
  activity_name : String
  description : String
  schedule : String
  max_participants : Nat
  participants : List String
deriving DecidableEq, Repr

/-- The state of the `activities` collection. -/
abbrev Store := List ActivityDoc

/-- The value part of an entry of the `/activities` response: an activity
document with the storage-internal `_id` and the `activity_name` field
removed (line 150-151 of `app.py`). -/
structure ActivityInfo where
  description : String
  schedule : String
  max_participants : Nat
  participants : List String
deriving DecidableEq, Repr

/-- Outcome of a handler: either a JSON body (`ok message`) or an
`HTTPException` with the status codes used by `app.py` (404, 400, 500). -/
inductive ApiResult where
  | notFound (detail : String)
  | badRequest (detail : String)
  | internalError (detail : String)
  | ok (message : String)
deriving DecidableEq, Repr

/-- The `Duplicate` failure of the spec taxonomy, as `app.py` line 171
produces it. -/
def Duplicate : ApiResult := .badRequest "Already signed up for this activity"

/-- The `CapacityExceeded` failure of the spec taxonomy, as `app.py`
line 175 produces it. -/
def CapacityExceeded : ApiResult := .badRequest "Activity is full"

/-- Validation failures are the caller-facing outcomes `NotFound`,
`Duplicate` and `CapacityExceeded` (the 404/400 responses); `InternalError`
(500) and success are not validation failures. -/
def isValidationFailure : ApiResult → Bool
  | .notFound _ => true
  | .badRequest _ => true
  | .internalError _ => false
  | .ok _ => false

/-- Embeds `activities_collection.find_one({"activity_name": name})`: the first
document whose `activity_name` equals `name`. -/
def find_one (s : Store) (name : String) : Option ActivityDoc :=
  s.find? (fun a => a.activity_name == name)

/-- Embeds `update_one({"activity_name": name}, {"$push": {"participants": pid}})`:
append `pid` to the participants array of the first matching document and
report the store after the update together with `modified_count`. -/
def pushParticipant (s : Store) (name pid : String) : Store × Nat :=
  match s with
  | [] => ([], 0)
  | a :: rest =>
    if a.activity_name == name then
      ({ a with participants := a.participants ++ [pid] } :: rest, 1)
    else
      let r := pushParticipant rest name pid
      (a :: r.1, r.2)

/-- Embeds `update_one({"activity_name": name}, {"$pull": {"participants": pid}})`:
remove every occurrence of `pid` from the participants array of the first
matching document; the document is modified exactly when `pid` occurred. -/
def pullParticipant (s : Store) (name pid : String) : Store × Nat :=
  match s with
  | [] => ([], 0)
  | a :: rest =>
    if a.activity_name == name then
      ({ a with participants := a.participants.filter (fun p => p != pid) } :: rest,
       if pid ∈ a.participants then 1 else 0)
    else
      let r := pullParticipant rest name pid
      (a :: r.1, r.2)

/-- Embeds `signup_for_activity` (app.py lines 160-191), with the store at
`find_one` time (`s0`) and the store at `update_one` time (`s1`) taken
separately, since these are two separate collection operations. -/
def signup_for_activity_from (s0 s1 : Store) (activity_name email : String) :
    ApiResult × Store :=
  match find_one s0 activity_name with
  | none => (.notFound "Activity not found", s1)
  | some activity =>
    if email ∈ activity.participants then
      (.badRequest "Already signed up for this activity", s1)
    else if activity.participants.length ≥ activity.max_participants then
      (.badRequest "Activity is full", s1)
    else
      let r := pushParticipant s1 activity_name email
      if r.2 = 0 then
        (.internalError "Failed to sign up", r.1)
      else
        (.ok ("Signed up " ++ email ++ " for " ++ activity_name), r.1)

/-- Behavior of `signup_for_activity` under sequential (uninterleaved) execution: the
store does not change between the lookup and the update. -/
def signup_for_activity (s : Store) (activity_name email : String) :
    ApiResult × Store :=
  signup_for_activity_from s s activity_name email

/-- Embeds `remove_participant` (app.py lines 194-221), with the read-time and
update-time stores taken separately. -/
def remove_participant_from (s0 s1 : Store) (activity_name email : String) :
    ApiResult × Store :=
  match find_one s0 activity_name with
  | none => (.notFound "Activity not found", s1)
  | some activity =>
    if email ∈ activity.participants then
      let r := pullParticipant s1 activity_name email
      if r.2 = 0 then
        (.internalError "Failed to remove participant", r.1)
      else
        (.ok ("Removed " ++ email ++ " from " ++ activity_name), r.1)
    else
      (.notFound "Participant not found in this activity", s1)

/-- Behavior of `remove_participant` under sequential (uninterleaved) execution. -/
def remove_participant (s : Store) (activity_name email : String) :
    ApiResult × Store :=
  remove_participant_from s s activity_name email

/-- The seed catalog `initial_activities` (app.py lines 46-104), in its
source order. -/
def initial_activities : List (String × ActivityInfo) :=
  [ ("Chess Club",
     { description := "Learn strategies and compete in chess tournaments",
       schedule := "Fridays, 3:30 PM - 5:00 PM",
       max_participants := 12,
       participants := ["michael@mergington.edu", "daniel@mergington.edu"] }),
    ("Programming Class",
     { description := "Learn programming fundamentals and build software projects",
       schedule := "Tuesdays and Thursdays, 3:30 PM - 4:30 PM",
       max_participants := 20,
       participants := ["emma@mergington.edu", "sophia@mergington.edu"] }),
    ("Gym Class",
     { description := "Physical education and sports activities",
       schedule := "Mondays, Wednesdays, Fridays, 2:00 PM - 3:00 PM",
       max_participants := 30,
       participants := ["john@mergington.edu", "olivia@mergington.edu"] }),
    ("Soccer Team",
     { description := "Join the school soccer team and compete in local leagues",
       schedule := "Tuesdays and Thursdays, 4:00 PM - 5:30 PM",
       max_participants := 18,
       participants := ["lucas@mergington.edu", "mia@mergington.edu"] }),
    ("Basketball Club",
     { description := "Practice basketball skills and play friendly matches",
       schedule := "Wednesdays, 3:30 PM - 5:00 PM",
       max_participants := 15,
       participants := ["liam@mergington.edu", "ava@mergington.edu"] }),
    ("Art Club",
     { description := "Explore painting, drawing, and other visual arts",
       schedule := "Mondays, 3:30 PM - 5:00 PM",
       max_participants := 16,
       participants := ["ella@mergington.edu", "noah@mergington.edu"] }),
    ("Drama Society",
     { description := "Participate in theater productions and acting workshops",
       schedule := "Fridays, 4:00 PM - 6:00 PM",
       max_participants := 20,
       participants := ["amelia@mergington.edu", "benjamin@mergington.edu"] }),
    ("Math Olympiad",
     { description := "Prepare for math competitions and solve challenging problems",
       schedule := "Thursdays, 3:30 PM - 5:00 PM",
       max_participants := 10,
       participants := ["charlotte@mergington.edu", "jack@mergington.edu"] }),
    ("Science Club",
     { description := "Conduct experiments and explore scientific concepts",
       schedule := "Wednesdays, 4:00 PM - 5:30 PM",
       max_participants := 14,
       participants := ["henry@mergington.edu", "grace@mergington.edu"] }) ]

/-- The documents built by `populate_database` (app.py lines 113-120): one
document per seed entry, the name stored in the `activity_name` field.  The
database assigns `_id` on insert; we use the insertion index. -/
def seedDocuments : Store :=
  initial_activities.enum.map (fun p =>
    { mongoId := p.1,
      activity_name := p.2.1,
      description := p.2.2.description,
      schedule := p.2.2.schedule,
      max_participants := p.2.2.max_participants,
      participants := p.2.2.participants })

/-- Embeds `populate_database` (app.py lines 106-128): insert the seed documents
when `count_documents({}) == 0`, otherwise leave the collection alone. -/
def populate_database (s : Store) : Store :=
  if s.length = 0 then s ++ seedDocuments else s

/-- Python dict update `m[k] = v`: replace the value at `k` in place if `k`
is present, otherwise append the new entry. -/
def dictInsert (m : List (String × ActivityInfo)) (k : String) (v : ActivityInfo) :
    List (String × ActivityInfo) :=
  match m with
  | [] => [(k, v)]
  | (k0, v0) :: rest =>
    if k0 == k then (k, v) :: rest else (k0, v0) :: dictInsert rest k v

/-- The dict comprehension of app.py lines 150-151: every field of the
document except `_id` and `activity_name`. -/
def stripDoc (d : ActivityDoc) : ActivityInfo :=
  { description := d.description,
    schedule := d.schedule,
    max_participants := d.max_participants,
    participants := d.participants }

/-- Embeds `get_activities` (app.py lines 139-154): iterate over `find()`, keying a
dict by `activity_name` with the stripped document as value.  The handler
only reads, so the store it leaves behind is returned alongside. -/
def get_activities (s : Store) : List (String × ActivityInfo) × Store :=
  (s.foldl (fun m d => dictInsert m d.activity_name (stripDoc d)) [], s)

/-- Module initialization (app.py lines 29-38 and 131): create the client and
`ping`; on `ConnectionFailure` the handler raises, the import fails and no
collection state is produced, so no handler is ever registered.  On success
the collection is seeded by `populate_database`. -/
def module_init (pingOk : Bool) (s : Store) : Except String Store :=
  if pingOk then .ok (populate_database s) else .error "Could not connect to MongoDB"

/-- A roster operation issued against the service. -/
inductive Op where
  | signup (activity_name email : String)
  | remove (activity_name email : String)
deriving DecidableEq, Repr

/-- The store after one operation (sequential semantics). -/
def applyOp (s : Store) : Op → Store
  | .signup n e => (signup_for_activity s n e).2
  | .remove n e => (remove_participant s n e).2

/-- The store after a sequence of operations. -/
def applyOps (s : Store) : List Op → Store
  | [] => s
  | op :: ops => applyOps (applyOp s op) ops

/-- The documented per-activity invariants: the roster never exceeds the
capacity and holds no duplicate identifier. -/
def ActivityInv (a : ActivityDoc) : Prop :=
  a.participants.length ≤ a.max_participants ∧ a.participants.Nodup

/-- Every activity of the store satisfies `ActivityInv`. -/
def StoreInv (s : Store) : Prop :=
  ∀ a ∈ s, ActivityInv a

instance (a : ActivityDoc) : Decidable (ActivityInv a) :=
  decidable_of_iff (a.participants.length ≤ a.max_participants ∧ a.participants.Nodup)
    Iff.rfl

instance (s : Store) : Decidable (StoreInv s) :=
  decidable_of_iff (∀ a ∈ s, ActivityInv a) Iff.rfl

/-- A one-activity store used to instantiate the theorems: an empty
two-seat Chess Club roster. -/
def chessEmpty : ActivityDoc :=
  { mongoId := 0, activity_name := "Chess Club", description := "d",
    schedule := "s", max_participants := 2, participants := [] }

/-- A full one-seat roster already holding its sole participant. -/
def chessFull : ActivityDoc :=
  { chessEmpty with max_participants := 1, participants := ["a@x.edu"] }

/-- A roster holding the same identifier twice (an invariant-violating
state reachable only outside the service, used to exercise the `pull`
semantics). -/
def chessDup : ActivityDoc :=
  { chessEmpty with participants := ["a@x.edu", "b@x.edu", "a@x.edu"] }

theorem find_one_mem {s : Store} {n : String} {a : ActivityDoc}
    (h : find_one s n = some a) : a ∈ s :=
  List.mem_of_find?_eq_some h

theorem find_one_name {s : Store} {n : String} {a : ActivityDoc}
    (h : find_one s n = some a) : a.activity_name = n := by
  unfold find_one at h
  have h0 := List.find?_some (p := fun b : ActivityDoc => b.activity_name == n) h
  simpa using h0

theorem pushParticipant_not_found {s : Store} {n : String} (e : String)
    (h : find_one s n = none) : pushParticipant s n e = (s, 0) := by
  induction s with
  | nil => rfl
  | cons c rest ih =>
    by_cases hc : c.activity_name = n
    · rw [find_one, List.find?_cons_of_pos _ (by simp [hc])] at h
      cases h
    · rw [find_one, List.find?_cons_of_neg _ (by simp [hc])] at h
      simp only [pushParticipant, if_neg (by simp [hc] : ¬((c.activity_name == n) = true))]
      rw [ih h]

theorem pushParticipant_found {s : Store} {n e : String} {a : ActivityDoc}
    (h : find_one s n = some a) :
    (pushParticipant s n e).2 = 1 ∧
    find_one (pushParticipant s n e).1 n =
      some { a with participants := a.participants ++ [e] } ∧
    ∀ b ∈ (pushParticipant s n e).1,
      b ∈ s ∨ b = { a with participants := a.participants ++ [e] } := by
  induction s with
  | nil => cases h
  | cons c rest ih =>
    by_cases hc : c.activity_name = n
    · rw [find_one, List.find?_cons_of_pos _ (by simp [hc])] at h
      obtain rfl : c = a := by cases h; rfl
      simp only [pushParticipant, if_pos (by simp [hc] : (c.activity_name == n) = true)]
      refine ⟨by simp, ?_, ?_⟩
      · rw [find_one, List.find?_cons_of_pos _ (by simp [hc])]
      · intro b hb
        rcases List.mem_cons.1 hb with hb | hb
        · exact Or.inr hb
        · exact Or.inl (List.mem_cons_of_mem _ hb)
    · rw [find_one, List.find?_cons_of_neg _ (by simp [hc])] at h
      obtain ⟨ih1, ih2, ih3⟩ := ih h
      simp only [pushParticipant, if_neg (by simp [hc] : ¬((c.activity_name == n) = true))]
      refine ⟨ih1, ?_, ?_⟩
      · rw [find_one, List.find?_cons_of_neg _ (by simp [hc])]
        exact ih2
      · intro b hb
        rcases List.mem_cons.1 hb with hb | hb
        · exact Or.inl (hb ▸ List.mem_cons_self _ _)
        · rcases ih3 b hb with hbs | hbe
          · exact Or.inl (List.mem_cons_of_mem _ hbs)
          · exact Or.inr hbe

theorem pullParticipant_not_found {s : Store} {n : String} (e : String)
    (h : find_one s n = none) : pullParticipant s n e = (s, 0) := by
  induction s with
  | nil => rfl
  | cons c rest ih =>
    by_cases hc : c.activity_name = n
    · rw [find_one, List.find?_cons_of_pos _ (by simp [hc])] at h
      cases h
    · rw [find_one, List.find?_cons_of_neg _ (by simp [hc])] at h
      simp only [pullParticipant, if_neg (by simp [hc] : ¬((c.activity_name == n) = true))]
      rw [ih h]

theorem pullParticipant_found {s : Store} {n e : String} {a : ActivityDoc}
    (h : find_one s n = some a) :
    (pullParticipant s n e).2 = (if e ∈ a.participants then 1 else 0) ∧
    find_one (pullParticipant s n e).1 n =
      some { a with participants := a.participants.filter (fun p => p != e) } ∧
    ∀ b ∈ (pullParticipant s n e).1,
      b ∈ s ∨ b = { a with participants := a.participants.filter (fun p => p != e) } := by
  induction s with
  | nil => cases h
  | cons c rest ih =>
    by_cases hc : c.activity_name = n
    · rw [find_one, List.find?_cons_of_pos _ (by simp [hc])] at h
      obtain rfl : c = a := by cases h; rfl
      simp only [pullParticipant, if_pos (by simp [hc] : (c.activity_name == n) = true)]
      refine ⟨by simp, ?_, ?_⟩
      · rw [find_one, List.find?_cons_of_pos _ (by simp [hc])]
      · intro b hb
        rcases List.mem_cons.1 hb with hb | hb
        · exact Or.inr hb
        · exact Or.inl (List.mem_cons_of_mem _ hb)
    · rw [find_one, List.find?_cons_of_neg _ (by simp [hc])] at h
      obtain ⟨ih1, ih2, ih3⟩ := ih h
      simp only [pullParticipant, if_neg (by simp [hc] : ¬((c.activity_name == n) = true))]
      refine ⟨ih1, ?_, ?_⟩
      · rw [find_one, List.find?_cons_of_neg _ (by simp [hc])]
        exact ih2
      · intro b hb
        rcases List.mem_cons.1 hb with hb | hb
        · exact Or.inl (hb ▸ List.mem_cons_self _ _)
        · rcases ih3 b hb with hbs | hbe
          · exact Or.inl (List.mem_cons_of_mem _ hbs)
          · exact Or.inr hbe

theorem signup_preserves_inv {s : Store} (n e : String) (h : StoreInv s) :
    StoreInv (signup_for_activity s n e).2 := by
  unfold signup_for_activity signup_for_activity_from
  cases hf : find_one s n with
  | none => exact h
  | some a =>
    by_cases hmem : e ∈ a.participants
    · simp only [if_pos hmem]
      exact h
    · by_cases hcap : a.participants.length ≥ a.max_participants
      · simp only [if_neg hmem, if_pos hcap]
        exact h
      · simp only [if_neg hmem, if_neg hcap]
        obtain ⟨hcnt, -, hmem2⟩ := pushParticipant_found (e := e) hf
        simp only [hcnt]
        norm_num
        intro b hb
        rcases hmem2 b hb with hbs | rfl
        · exact h b hbs
        · have hinv := h a (find_one_mem hf)
          have hlt := lt_of_not_ge hcap
          constructor
          · simp only [ActivityDoc.mk.injEq]
            simp
            omega
          · simp only []
            simp [List.nodup_append, hinv.2, hmem]

theorem remove_preserves_inv {s : Store} (n e : String) (h : StoreInv s) :
    StoreInv (remove_participant s n e).2 := by
  unfold remove_participant remove_participant_from
  cases hf : find_one s n with
  | none => exact h
  | some a =>
    by_cases hmem : e ∈ a.participants
    · simp only [if_pos hmem]
      obtain ⟨hcnt, -, hmem2⟩ := pullParticipant_found (e := e) hf
      simp only [hcnt, if_pos hmem]
      norm_num
      intro b hb
      rcases hmem2 b hb with hbs | rfl
      · exact h b hbs
      · have hinv := h a (find_one_mem hf)
        constructor
        · simp
          exact le_trans (List.length_filter_le _ _) hinv.1
        · simp
          exact hinv.2.filter _
    · simp only [if_neg hmem]
      exact h

/-- C1: starting from any store in which every activity satisfies
`len(participants) <= max_participants` and has a duplicate-free roster,
after any sequence of signup and remove operations every activity still
satisfies both properties. -/
theorem applyOps_preserves_invariants (s : Store) (ops : List Op) (h : StoreInv s) :
    StoreInv (applyOps s ops) := by
  induction ops generalizing s with
  | nil => exact h
  | cons op ops ih =>
    cases op with
    | signup n e => exact ih _ (signup_preserves_inv n e h)
    | remove n e => exact ih _ (remove_preserves_inv n e h)

/-- Witness for C1 at a concrete store and operation sequence. -/
theorem applyOps_preserves_invariants_witness :
    StoreInv [chessEmpty] ∧
    StoreInv (applyOps [chessEmpty]
      [Op.signup "Chess Club" "a@x.edu", Op.signup "Chess Club" "b@x.edu",
       Op.remove "Chess Club" "a@x.edu"]) :=
  ⟨by decide, applyOps_preserves_invariants _ _ (by decide)⟩

/-- C2: signup validates in the fixed order existence, then duplicate, then
capacity: a missing activity yields `NotFound`; an already-enrolled
participant yields `Duplicate` even when the roster is also at capacity;
otherwise a full roster yields `CapacityExceeded`. -/
theorem signup_check_order (s : Store) (n e : String) :
    (find_one s n = none →
      (signup_for_activity s n e).1 = ApiResult.notFound "Activity not found") ∧
    (∀ a, find_one s n = some a → e ∈ a.participants →
      (signup_for_activity s n e).1 = Duplicate) ∧
    (∀ a, find_one s n = some a → e ∉ a.participants →
      a.participants.length ≥ a.max_participants →
      (signup_for_activity s n e).1 = CapacityExceeded) := by
  refine ⟨?_, ?_, ?_⟩
  · intro hf
    simp [signup_for_activity, signup_for_activity_from, hf]
  · intro a hf hmem
    simp [signup_for_activity, signup_for_activity_from, hf, hmem, Duplicate]
  · intro a hf hmem hcap
    simp [signup_for_activity, signup_for_activity_from, hf, hmem, hcap, CapacityExceeded]

/-- Witness for C2: an unknown activity is `NotFound`; signing the sole
member of a full one-seat roster again is `Duplicate` (capacity is also
reached, yet the duplicate check wins); a fresh participant against the
same full roster is `CapacityExceeded`. -/
theorem signup_check_order_witness :
    (signup_for_activity [chessFull] "Unknown Club" "a@x.edu").1 =
      ApiResult.notFound "Activity not found" ∧
    (signup_for_activity [chessFull] "Chess Club" "a@x.edu").1 = Duplicate ∧
    (signup_for_activity [chessFull] "Chess Club" "b@x.edu").1 = CapacityExceeded :=
  ⟨(signup_check_order [chessFull] "Unknown Club" "a@x.edu").1 (by decide),
   (signup_check_order [chessFull] "Chess Club" "a@x.edu").2.1 chessFull
     (by decide) (by decide),
   (signup_check_order [chessFull] "Chess Club" "b@x.edu").2.2 chessFull
     (by decide) (by decide) (by decide)⟩

/-- C3: when the activity exists, the participant is not yet enrolled and
the roster is below capacity, signup appends the participant at the end of
the roster (insertion order = signup order) and returns the confirmation
message naming both the participant and the activity. -/
theorem signup_success_appends (s : Store) (n e : String) (a : ActivityDoc)
    (hf : find_one s n = some a) (hmem : e ∉ a.participants)
    (hcap : a.participants.length < a.max_participants) :
    (signup_for_activity s n e).1 =
      ApiResult.ok ("Signed up " ++ e ++ " for " ++ n) ∧
    find_one (signup_for_activity s n e).2 n =
      some { a with participants := a.participants ++ [e] } := by
  obtain ⟨hcnt, hfind, -⟩ := pushParticipant_found (e := e) hf
  have hncap : ¬ a.participants.length ≥ a.max_participants := not_le.2 hcap
  constructor
  · simp [signup_for_activity, signup_for_activity_from, hf, hmem, hncap, hcnt]
  · simp only [signup_for_activity, signup_for_activity_from, hf, if_neg hmem,
      if_neg hncap, hcnt]
    norm_num
    exact hfind

/-- Witness for C3: enrolling in an empty two-seat Chess Club roster. -/
theorem signup_success_appends_witness :
    (signup_for_activity [chessEmpty] "Chess Club" "a@x.edu").1 =
      ApiResult.ok ("Signed up " ++ "a@x.edu" ++ " for " ++ "Chess Club") ∧
    find_one (signup_for_activity [chessEmpty] "Chess Club" "a@x.edu").2 "Chess Club" =
      some { chessEmpty with participants := chessEmpty.participants ++ ["a@x.edu"] } :=
  signup_success_appends [chessEmpty] "Chess Club" "a@x.edu" chessEmpty
    (by decide) (by decide) (by decide)

/-- C4: remove yields `NotFound` for a missing activity and for a
participant not on the roster; for an enrolled participant it removes the
identifier so the roster no longer contains it, returns the confirmation,
and a second remove for the same pair then fails with `NotFound`. -/
theorem remove_spec (s : Store) (n e : String) :
    (find_one s n = none →
      (remove_participant s n e).1 = ApiResult.notFound "Activity not found") ∧
    (∀ a, find_one s n = some a → e ∉ a.participants →
      (remove_participant s n e).1 =
        ApiResult.notFound "Participant not found in this activity") ∧
    (∀ a, find_one s n = some a → e ∈ a.participants →
      (remove_participant s n e).1 = ApiResult.ok ("Removed " ++ e ++ " from " ++ n) ∧
      (∃ a2, find_one (remove_participant s n e).2 n = some a2 ∧
        e ∉ a2.participants) ∧
      (remove_participant (remove_participant s n e).2 n e).1 =
        ApiResult.notFound "Participant not found in this activity") := by
  refine ⟨?_, ?_, ?_⟩
  · intro hf
    simp [remove_participant, remove_participant_from, hf]
  · intro a hf hmem
    simp [remove_participant, remove_participant_from, hf, hmem]
  · intro a hf hmem
    obtain ⟨hcnt, hfind, -⟩ := pullParticipant_found (e := e) hf
    have hsnd : (remove_participant s n e).2 = (pullParticipant s n e).1 := by
      simp [remove_participant, remove_participant_from, hf, hmem, hcnt]
    have hnotmem : e ∉ ({ a with
        participants := a.participants.filter (fun p => p != e) } :
        ActivityDoc).participants := by
      simp
    refine ⟨?_, ⟨_, by rw [hsnd]; exact hfind, hnotmem⟩, ?_⟩
    · simp [remove_participant, remove_participant_from, hf, hmem, hcnt]
    · rw [remove_participant, remove_participant_from, hsnd, hfind]
      simp

/-- Witness for C4 at a one-activity store whose roster holds its sole
participant. -/
theorem remove_spec_witness :
    (remove_participant [chessFull] "Unknown Club" "a@x.edu").1 =
      ApiResult.notFound "Activity not found" ∧
    (remove_participant [chessFull] "Chess Club" "b@x.edu").1 =
      ApiResult.notFound "Participant not found in this activity" ∧
    (remove_participant [chessFull] "Chess Club" "a@x.edu").1 =
      ApiResult.ok ("Removed " ++ "a@x.edu" ++ " from " ++ "Chess Club") ∧
    (remove_participant (remove_participant [chessFull] "Chess Club" "a@x.edu").2
        "Chess Club" "a@x.edu").1 =
      ApiResult.notFound "Participant not found in this activity" :=
  ⟨(remove_spec [chessFull] "Unknown Club" "a@x.edu").1 (by decide),
   (remove_spec [chessFull] "Chess Club" "b@x.edu").2.1 chessFull (by decide) (by decide),
   ((remove_spec [chessFull] "Chess Club" "a@x.edu").2.2 chessFull (by decide)
     (by decide)).1,
   ((remove_spec [chessFull] "Chess Club" "a@x.edu").2.2 chessFull (by decide)
     (by decide)).2.2⟩

/-- C5: whenever signup or remove returns a validation failure (a 404 or
400 response: `NotFound`, `Duplicate` or `CapacityExceeded`), the store is
left completely unchanged. -/
theorem validation_failure_leaves_store (s : Store) (n e : String) :
    (isValidationFailure (signup_for_activity s n e).1 = true →
      (signup_for_activity s n e).2 = s) ∧
    (isValidationFailure (remove_participant s n e).1 = true →
      (remove_participant s n e).2 = s) := by
  constructor
  · intro hv
    unfold signup_for_activity signup_for_activity_from at hv ⊢
    cases hf : find_one s n with
    | none => simp
    | some a =>
      simp only [hf] at hv ⊢
      by_cases hmem : e ∈ a.participants
      · simp [hmem]
      · by_cases hcap : a.participants.length ≥ a.max_participants
        · simp [hmem, hcap]
        · exfalso
          obtain ⟨hcnt, -, -⟩ := pushParticipant_found (e := e) hf
          simp [hmem, hcap, hcnt, isValidationFailure] at hv
  · intro hv
    unfold remove_participant remove_participant_from at hv ⊢
    cases hf : find_one s n with
    | none => simp
    | some a =>
      simp only [hf] at hv ⊢
      by_cases hmem : e ∈ a.participants
      · exfalso
        obtain ⟨hcnt, -, -⟩ := pullParticipant_found (e := e) hf
        simp [hmem, hcnt, isValidationFailure] at hv
      · simp [hmem]

/-- Witness for C5: a duplicate signup and a not-enrolled removal both
leave the concrete store as it was. -/
theorem validation_failure_leaves_store_witness :
    isValidationFailure (signup_for_activity [chessFull] "Chess Club" "a@x.edu").1 = true ∧
    (signup_for_activity [chessFull] "Chess Club" "a@x.edu").2 = [chessFull] ∧
    isValidationFailure (remove_participant [chessFull] "Chess Club" "b@x.edu").1 = true ∧
    (remove_participant [chessFull] "Chess Club" "b@x.edu").2 = [chessFull] :=
  ⟨by decide,
   (validation_failure_leaves_store [chessFull] "Chess Club" "a@x.edu").1 (by decide),
   by decide,
   (validation_failure_leaves_store [chessFull] "Chess Club" "b@x.edu").2 (by decide)⟩

/-- C6: when every validation check passes against the store read by
`find_one` but the `update_one` mutation reports `modified_count == 0`
(the record vanished from the store between the two operations), the
handler fails with `InternalError` (HTTP 500), not a validation failure. -/
theorem modified_count_zero_internalError (s0 s1 : Store) (n e : String) (a : ActivityDoc) :
    (find_one s0 n = some a → e ∉ a.participants →
      a.participants.length < a.max_participants →
      (pushParticipant s1 n e).2 = 0 →
      (signup_for_activity_from s0 s1 n e).1 =
        ApiResult.internalError "Failed to sign up") ∧
    (find_one s0 n = some a → e ∈ a.participants →
      (pullParticipant s1 n e).2 = 0 →
      (remove_participant_from s0 s1 n e).1 =
        ApiResult.internalError "Failed to remove participant") := by
  constructor
  · intro hf hmem hcap hcnt
    have hncap : ¬ a.participants.length ≥ a.max_participants := not_le.2 hcap
    simp [signup_for_activity_from, hf, hmem, hncap, hcnt]
  · intro hf hmem hcnt
    simp [remove_participant_from, hf, hmem, hcnt]

/-- Witness for C6: validation passes against the read-time store but the
activity is gone from the update-time store, so the push and pull modify
nothing and both handlers answer 500. -/
theorem modified_count_zero_internalError_witness :
    (signup_for_activity_from [chessEmpty] [] "Chess Club" "a@x.edu").1 =
      ApiResult.internalError "Failed to sign up" ∧
    (remove_participant_from [chessFull] [] "Chess Club" "a@x.edu").1 =
      ApiResult.internalError "Failed to remove participant" :=
  ⟨(modified_count_zero_internalError [chessEmpty] [] "Chess Club" "a@x.edu"
      chessEmpty).1 (by decide) (by decide) (by decide) (by decide),
   (modified_count_zero_internalError [chessFull] [] "Chess Club" "a@x.edu"
      chessFull).2 (by decide) (by decide) (by decide)⟩

/-- C7: `populate_database` inserts the seed records exactly when the store
holds zero records, is a no-op on a non-empty store, and running it twice
leaves the record count reached after the first run unchanged. -/
theorem populate_database_exactly_once (s : Store) :
    (s.length = 0 → populate_database s = seedDocuments) ∧
    (s.length ≠ 0 → populate_database s = s) ∧
    (populate_database (populate_database s)).length = (populate_database s).length := by
  refine ⟨?_, ?_, ?_⟩
  · intro h
    rw [List.length_eq_zero.1 h]
    rfl
  · intro h
    simp [populate_database, h]
  · by_cases h : s.length = 0
    · rw [List.length_eq_zero.1 h]
      have hpop : populate_database [] = seedDocuments := rfl
      have h9 : seedDocuments.length = 9 := rfl
      rw [hpop]
      simp [populate_database, h9]
    · simp [populate_database, h]

/-- Witness for C7: seeding the empty store, skipping a populated one, and
re-running after the first seeding. -/
theorem populate_database_exactly_once_witness :
    populate_database [] = seedDocuments ∧
    populate_database [chessEmpty] = [chessEmpty] ∧
    (populate_database (populate_database [])).length = (populate_database []).length :=
  ⟨(populate_database_exactly_once []).1 rfl,
   (populate_database_exactly_once [chessEmpty]).2.1 (by decide),
   (populate_database_exactly_once []).2.2⟩

theorem dictInsert_append {m : List (String × ActivityInfo)} {k : String}
    {v : ActivityInfo} (h : ∀ p ∈ m, p.1 ≠ k) :
    dictInsert m k v = m ++ [(k, v)] := by
  induction m with
  | nil => rfl
  | cons q rest ih =>
    have hq : q.1 ≠ k := h q (List.mem_cons_self _ _)
    obtain ⟨k0, v0⟩ := q
    have hq2 : ¬ (k0 == k) = true := by
      simp only [beq_iff_eq]
      simpa using hq
    simp only [dictInsert, if_neg hq2]
    rw [ih (fun p hp => h p (List.mem_cons_of_mem _ hp))]
    simp

theorem get_activities_foldl (s : Store) (init : List (String × ActivityInfo))
    (hd : (s.map (fun d => d.activity_name)).Nodup)
    (hdisj : ∀ p ∈ init, ∀ d ∈ s, p.1 ≠ d.activity_name) :
    s.foldl (fun m d => dictInsert m d.activity_name (stripDoc d)) init =
      init ++ s.map (fun d => (d.activity_name, stripDoc d)) := by
  induction s generalizing init with
  | nil => simp
  | cons d rest ih =>
    have hd2 : (rest.map (fun d => d.activity_name)).Nodup :=
      (List.nodup_cons.1 (by simpa using hd)).2
    have hnotmem : d.activity_name ∉ rest.map (fun d => d.activity_name) :=
      (List.nodup_cons.1 (by simpa using hd)).1
    have hdisj2 : ∀ p ∈ init ++ [(d.activity_name, stripDoc d)],
        ∀ d2 ∈ rest, p.1 ≠ d2.activity_name := by
      intro p hp d2 hd2mem
      rcases List.mem_append.1 hp with hp | hp
      · exact hdisj p hp d2 (List.mem_cons_of_mem _ hd2mem)
      · have hp1 : p.1 = d.activity_name := by
          simp at hp
          rw [hp]
        rw [hp1]
        intro hcontra
        exact hnotmem (hcontra ▸ List.mem_map_of_mem (fun d => d.activity_name) hd2mem)
    simp only [List.foldl_cons]
    rw [dictInsert_append (fun p hp => hdisj p hp d (List.mem_cons_self _ _))]
    rw [ih (init ++ [(d.activity_name, stripDoc d)]) hd2 hdisj2]
    simp

/-- C8: for a store whose activity names are distinct (the documented
uniqueness invariant), `get_activities` returns one entry per stored
record, keyed by `activity_name`, whose value is the document with the
storage-internal identifier and the name field stripped; no record is
dropped and the store is left unmodified. -/
theorem get_activities_spec (s : Store)
    (h : (s.map (fun d => d.activity_name)).Nodup) :
    (get_activities s).1 = s.map (fun d => (d.activity_name, stripDoc d)) ∧
    (get_activities s).2 = s := by
  constructor
  · unfold get_activities
    simpa using get_activities_foldl s [] h (fun p hp => absurd hp (List.not_mem_nil p))
  · rfl

/-- Witness for C8 at the full seed catalog. -/
theorem get_activities_spec_witness :
    (get_activities seedDocuments).1 =
      seedDocuments.map (fun d => (d.activity_name, stripDoc d)) ∧
    (get_activities seedDocuments).2 = seedDocuments :=
  get_activities_spec seedDocuments (by decide)

/-- C9: when the ping at module initialization fails, initialization is the
error raised on `ConnectionFailure` — no collection state is produced
(`toOption` is `none`), so the process does not start and no handler can
run against an unconnected store; when the ping succeeds, initialization
yields the seeded collection. -/
theorem startup_unreachable_is_fatal :
    (∀ s : Store, module_init false s = Except.error "Could not connect to MongoDB") ∧
    (∀ s : Store, (module_init false s).toOption = none) ∧
    (∀ s : Store, module_init true s = Except.ok (populate_database s)) :=
  ⟨fun _ => rfl, fun _ => rfl, fun _ => rfl⟩

/-- C10: a successful remove eliminates every occurrence of the identifier
from the roster (MongoDB `$pull` semantics), not only the first, even when
the stored list held it more than once. -/
theorem remove_eliminates_every_occurrence (s : Store) (n e : String) (a : ActivityDoc)
    (hf : find_one s n = some a) (hmem : e ∈ a.participants) :
    (remove_participant s n e).1 = ApiResult.ok ("Removed " ++ e ++ " from " ++ n) ∧
    ∃ a2, find_one (remove_participant s n e).2 n = some a2 ∧
      a2.participants = a.participants.filter (fun p => p != e) ∧
      a2.participants.count e = 0 := by
  obtain ⟨hcnt, hfind, -⟩ := pullParticipant_found (e := e) hf
  have hsnd : (remove_participant s n e).2 = (pullParticipant s n e).1 := by
    simp [remove_participant, remove_participant_from, hf, hmem, hcnt]
  refine ⟨?_, ⟨_, by rw [hsnd]; exact hfind, rfl, ?_⟩⟩
  · simp [remove_participant, remove_participant_from, hf, hmem, hcnt]
  · rw [List.count_eq_zero]
    simp

/-- Witness for C10 at a roster that holds the identifier twice: the remove
succeeds and afterwards the roster counts zero occurrences. -/
theorem remove_eliminates_every_occurrence_witness :
    (remove_participant [chessDup] "Chess Club" "a@x.edu").1 =
      ApiResult.ok ("Removed " ++ "a@x.edu" ++ " from " ++ "Chess Club") ∧
    ∃ a2, find_one (remove_participant [chessDup] "Chess Club" "a@x.edu").2
        "Chess Club" = some a2 ∧
      a2.participants = chessDup.participants.filter (fun p => p != "a@x.edu") ∧
      a2.participants.count "a@x.edu" = 0 :=
  remove_eliminates_every_occurrence [chessDup] "Chess Club" "a@x.edu" chessDup
    (by decide) (by decide)
